import Mathlib

/-!
Shallow embedding of `script/aiff-enrichment2.py` (AIFF-Creativity).

The script is a three-part pipeline over a tab-separated table of
narratives:

* `process_single_narrative` sends one text plus an instruction to a
  text-generation capability, retrying on failure with linear backoff
  and returning an in-band error-marker string after the last failure;
* `process_narrative_pairs` compares each adjacent pair of annotation
  strings by reusing `process_single_narrative`;
* `process_narratives` loads the table, fills an annotation column and
  a persistence column, and writes the table back.

The generation capability (Anthropic client) is modelled as a function
from the request string and the attempt index (within one call of
`process_single_narrative`) to a result; `time.sleep` and the requests
issued are recorded in an explicit trace so that scheduling claims can
be stated.
-/

set_option maxHeartbeats 1000000

/-- Outcome of one invocation of the generation capability:
either generated text or a raised error carrying a message
(Python: return value of `client.messages.create` vs the caught
exception `e`, with `str e` the message). -/
inductive GenResult where
  | ok (payload : String)
  | err (msg : String)
deriving DecidableEq, Repr

/-- The generation capability: given the request text and the 0-based
attempt index inside one `process_single_narrative` call, produce a
result.  A plain function, so one fixed capability is deterministic. -/
abbrev Cap := String → Nat → GenResult

/-- Observable trace of one `process_single_narrative` call:
the returned value (`none` models Python falling off the loop and
returning `None`), the number of attempts made, the list of sleep
durations passed to `time.sleep` in order, and the request strings
sent to the capability in order. -/
structure AnnotatorTrace where
  result : Option String
  attempts : Nat
  sleeps : List Nat
  requests : List String
deriving DecidableEq, Repr

/-- The request string built in the body of `process_single_narrative`:
`f"\x7bprompt\x7d\n\nNarrative: \x7bnarrative\x7d"`. -/
def mkRequest (prompt narrative : String) : String :=
  prompt ++ "\n\nNarrative: " ++ narrative

/-- The retry loop of `process_single_narrative`, starting at a given
attempt index: `for attempt in range(max_retries)` with body
try / return `message.content` / except: if last attempt return
`"Error: " ++ str e` else `time.sleep (delay * (attempt + 1))`. -/
def retryLoop (cap : Cap) (prompt narrative : String)
    (maxRetries delay attempt : Nat) : AnnotatorTrace :=
  if h : attempt < maxRetries then
    match cap (mkRequest prompt narrative) attempt with
    | GenResult.ok payload =>
        { result := some payload, attempts := 1, sleeps := [],
          requests := [mkRequest prompt narrative] }
    | GenResult.err e =>
        if attempt = maxRetries - 1 then
          { result := some ("Error: " ++ e), attempts := 1, sleeps := [],
            requests := [mkRequest prompt narrative] }
        else
          let rest := retryLoop cap prompt narrative maxRetries delay (attempt + 1)
          { result := rest.result, attempts := rest.attempts + 1,
            sleeps := delay * (attempt + 1) :: rest.sleeps,
            requests := mkRequest prompt narrative :: rest.requests }
  else
    { result := none, attempts := 0, sleeps := [], requests := [] }
termination_by maxRetries - attempt
decreasing_by simp_wf; omega

/-- `process_single_narrative(narrative, client, prompt, max_retries, delay)`:
the retry loop started at attempt 0.  Python defaults are
`max_retries = 3`, `delay = 1`; call sites inside the script use the
defaults. -/
def process_single_narrative (cap : Cap) (prompt narrative : String)
    (maxRetries delay : Nat) : AnnotatorTrace :=
  retryLoop cap prompt narrative maxRetries delay 0

theorem retryLoop_stop (cap : Cap) (prompt narrative : String)
    (maxRetries delay attempt : Nat) (h : ¬ attempt < maxRetries) :
    retryLoop cap prompt narrative maxRetries delay attempt =
      { result := none, attempts := 0, sleeps := [], requests := [] } := by
  rw [retryLoop]; simp [h]

theorem retryLoop_ok (cap : Cap) (prompt narrative : String)
    (maxRetries delay attempt : Nat) (h : attempt < maxRetries)
    (p : String) (hok : cap (mkRequest prompt narrative) attempt = GenResult.ok p) :
    retryLoop cap prompt narrative maxRetries delay attempt =
      { result := some p, attempts := 1, sleeps := [],
        requests := [mkRequest prompt narrative] } := by
  rw [retryLoop]; simp [h, hok]

theorem retryLoop_err_last (cap : Cap) (prompt narrative : String)
    (maxRetries delay attempt : Nat) (h : attempt < maxRetries)
    (hlast : attempt = maxRetries - 1)
    (e : String) (herr : cap (mkRequest prompt narrative) attempt = GenResult.err e) :
    retryLoop cap prompt narrative maxRetries delay attempt =
      { result := some ("Error: " ++ e), attempts := 1, sleeps := [],
        requests := [mkRequest prompt narrative] } := by
  subst hlast; rw [retryLoop]; simp [h, herr]

theorem retryLoop_err_step (cap : Cap) (prompt narrative : String)
    (maxRetries delay attempt : Nat) (h : attempt < maxRetries)
    (hlast : ¬ attempt = maxRetries - 1)
    (e : String) (herr : cap (mkRequest prompt narrative) attempt = GenResult.err e) :
    retryLoop cap prompt narrative maxRetries delay attempt =
      { result := (retryLoop cap prompt narrative maxRetries delay (attempt + 1)).result,
        attempts := (retryLoop cap prompt narrative maxRetries delay (attempt + 1)).attempts + 1,
        sleeps := delay * (attempt + 1) ::
          (retryLoop cap prompt narrative maxRetries delay (attempt + 1)).sleeps,
        requests := mkRequest prompt narrative ::
          (retryLoop cap prompt narrative maxRetries delay (attempt + 1)).requests } := by
  rw [retryLoop]; simp [h, herr, hlast]

theorem retryLoop_allfail (cap : Cap) (prompt narrative : String)
    (maxRetries delay : Nat) (E : Nat → String)
    (hfail : ∀ a, cap (mkRequest prompt narrative) a = GenResult.err (E a)) :
    ∀ fuel attempt, maxRetries - attempt = fuel → attempt < maxRetries →
      retryLoop cap prompt narrative maxRetries delay attempt =
        { result := some ("Error: " ++ E (maxRetries - 1)),
          attempts := maxRetries - attempt,
          sleeps := (List.range' (attempt + 1) (maxRetries - 1 - attempt)).map
            (fun j => delay * j),
          requests := List.replicate (maxRetries - attempt)
            (mkRequest prompt narrative) } := by
  intro fuel
  induction fuel with
  | zero => intro attempt hf ha; omega
  | succ n ih =>
    intro attempt hf ha
    by_cases hlast : attempt = maxRetries - 1
    · rw [retryLoop_err_last cap prompt narrative maxRetries delay attempt ha hlast
        (E attempt) (hfail attempt)]
      have h1 : maxRetries - attempt = 1 := by omega
      have h2 : maxRetries - 1 - attempt = 0 := by omega
      rw [h1, h2, hlast]
      simp
    · have hstep : attempt + 1 < maxRetries := by omega
      rw [retryLoop_err_step cap prompt narrative maxRetries delay attempt ha hlast
        (E attempt) (hfail attempt)]
      rw [ih (attempt + 1) (by omega) hstep]
      have h3 : maxRetries - 1 - attempt = (maxRetries - 1 - (attempt + 1)) + 1 := by omega
      have h4 : maxRetries - attempt = (maxRetries - (attempt + 1)) + 1 := by omega
      rw [h3, h4, List.range'_succ, List.replicate_succ]
      simp

theorem single_allfail (cap : Cap) (prompt narrative : String)
    (m delay : Nat) (hm : 1 ≤ m) (E : Nat → String)
    (hfail : ∀ a, cap (mkRequest prompt narrative) a = GenResult.err (E a)) :
    process_single_narrative cap prompt narrative m delay =
      { result := some ("Error: " ++ E (m - 1)),
        attempts := m,
        sleeps := (List.range' 1 (m - 1)).map (fun j => delay * j),
        requests := List.replicate m (mkRequest prompt narrative) } := by
  unfold process_single_narrative
  rw [retryLoop_allfail cap prompt narrative m delay E hfail (m - 0) 0 rfl (by omega)]
  simp

/-- C1: with a capability failing on every attempt and `max_attempts = m ≥ 1`,
`process_single_narrative` makes exactly m attempts, returns a value to the
caller (no raised error: the result is `some _`), and that value is the
deterministic failure marker `"Error: " ++ e` built from the last attempt's
error message — a string distinct from the payload of any successful call,
which the marker construction prefixes with `"Error: "`. -/
theorem annotator_allfail_marker (cap : Cap) (prompt narrative : String)
    (m delay : Nat) (hm : 1 ≤ m) (E : Nat → String)
    (hfail : ∀ a, cap (mkRequest prompt narrative) a = GenResult.err (E a)) :
    (process_single_narrative cap prompt narrative m delay).attempts = m ∧
    (process_single_narrative cap prompt narrative m delay).result =
      some ("Error: " ++ E (m - 1)) ∧
    (process_single_narrative cap prompt narrative m delay).result.isSome = true := by
  rw [single_allfail cap prompt narrative m delay hm E hfail]
  exact ⟨rfl, rfl, rfl⟩

theorem annotator_allfail_marker_witness :
    (process_single_narrative (fun _ _ => GenResult.err "boom") "p" "t" 2 1).attempts = 2 ∧
    (process_single_narrative (fun _ _ => GenResult.err "boom") "p" "t" 2 1).result =
      some ("Error: " ++ "boom") ∧
    (process_single_narrative (fun _ _ => GenResult.err "boom") "p" "t" 2 1).result.isSome
      = true :=
  annotator_allfail_marker (fun _ _ => GenResult.err "boom") "p" "t" 2 1 (by decide)
    (fun _ => "boom") (fun _ => rfl)

theorem sum_map_mul_left (d : Nat) (f : Nat → Nat) (l : List Nat) :
    (l.map (fun j => d * f j)).sum = d * (l.map f).sum := by
  induction l with
  | nil => simp
  | cons x xs ih => simp [ih, Nat.mul_add]

/-- C5: with a capability failing on every attempt and `max_attempts = m ≥ 1`,
the sleeps of `process_single_narrative` are exactly the m - 1 delays between
consecutive failed attempts, the j-th sleep (j starting at 1) lasting
`delay * j`; no sleep follows the final attempt, and the total slept time is
`delay * (1 + 2 + ... + (m - 1))`. -/
theorem annotator_backoff_schedule (cap : Cap) (prompt narrative : String)
    (m delay : Nat) (hm : 1 ≤ m) (E : Nat → String)
    (hfail : ∀ a, cap (mkRequest prompt narrative) a = GenResult.err (E a)) :
    (process_single_narrative cap prompt narrative m delay).sleeps =
      (List.range (m - 1)).map (fun j => delay * (j + 1)) ∧
    (process_single_narrative cap prompt narrative m delay).sleeps.length = m - 1 ∧
    (process_single_narrative cap prompt narrative m delay).sleeps.sum =
      delay * (List.range m).sum := by
  rw [single_allfail cap prompt narrative m delay hm E hfail]
  have hmap : (List.range' 1 (m - 1)).map (fun j => delay * j) =
      (List.range (m - 1)).map (fun j => delay * (j + 1)) := by
    rw [List.range'_eq_map_range, List.map_map]
    apply List.map_congr_left
    intro j _
    simp [Nat.add_comm]
  refine ⟨hmap, ?_, ?_⟩
  · simp
  · rw [hmap]
    obtain ⟨k, rfl⟩ : ∃ k, m = k + 1 := ⟨m - 1, by omega⟩
    rw [List.range_succ_eq_map]
    simp only [Nat.add_sub_cancel, List.sum_cons, Nat.zero_add]
    rw [sum_map_mul_left delay (fun j => j + 1) (List.range k)]

theorem annotator_backoff_schedule_witness :
    (process_single_narrative (fun _ _ => GenResult.err "x") "p" "t" 3 2).sleeps =
      (List.range 2).map (fun j => 2 * (j + 1)) ∧
    (process_single_narrative (fun _ _ => GenResult.err "x") "p" "t" 3 2).sleeps.length = 2 ∧
    (process_single_narrative (fun _ _ => GenResult.err "x") "p" "t" 3 2).sleeps.sum =
      2 * (List.range 3).sum :=
  annotator_backoff_schedule (fun _ _ => GenResult.err "x") "p" "t" 3 2 (by decide)
    (fun _ => "x") (fun _ => rfl)

theorem retryLoop_isSome (cap : Cap) (prompt narrative : String)
    (maxRetries delay : Nat) :
    ∀ fuel attempt, maxRetries - attempt = fuel → attempt < maxRetries →
      (retryLoop cap prompt narrative maxRetries delay attempt).result.isSome = true := by
  intro fuel
  induction fuel with
  | zero => intro attempt hf ha; omega
  | succ n ih =>
    intro attempt hf ha
    cases hc : cap (mkRequest prompt narrative) attempt with
    | ok p => rw [retryLoop_ok cap prompt narrative maxRetries delay attempt ha p hc]; rfl
    | err e =>
      by_cases hlast : attempt = maxRetries - 1
      · rw [retryLoop_err_last cap prompt narrative maxRetries delay attempt ha hlast e hc]
        rfl
      · rw [retryLoop_err_step cap prompt narrative maxRetries delay attempt ha hlast e hc]
        exact ih (attempt + 1) (by omega) (by omega)

/-- C9: with `max_retries = 0` the loop body never runs: no attempt is made
and the call returns `none` (Python `None`, not a string); with
`max_retries ≥ 1` the result is always `some` string.  (A negative Python
`max_retries` gives `range(max_retries) = []` exactly like 0, so the Nat
value 0 models every non-positive argument.) -/
theorem annotator_zero_retries (cap : Cap) (prompt narrative : String) (delay : Nat) :
    (process_single_narrative cap prompt narrative 0 delay).result = none ∧
    (process_single_narrative cap prompt narrative 0 delay).attempts = 0 ∧
    ∀ m, 1 ≤ m →
      (process_single_narrative cap prompt narrative m delay).result.isSome = true := by
  unfold process_single_narrative
  rw [retryLoop_stop cap prompt narrative 0 delay 0 (by omega)]
  exact ⟨rfl, rfl, fun m hm =>
    retryLoop_isSome cap prompt narrative m delay m 0 rfl (by omega)⟩

theorem annotator_zero_retries_witness :
    (process_single_narrative (fun _ _ => GenResult.err "x") "p" "t" 0 1).result = none ∧
    (process_single_narrative (fun _ _ => GenResult.err "x") "p" "t" 3 1).result.isSome
      = true :=
  ⟨(annotator_zero_retries (fun _ _ => GenResult.err "x") "p" "t" 1).1,
   (annotator_zero_retries (fun _ _ => GenResult.err "x") "p" "t" 1).2.2 3 (by decide)⟩

theorem retryLoop_success_after (cap : Cap) (prompt narrative : String)
    (maxRetries delay k : Nat) (p : String)
    (hok : cap (mkRequest prompt narrative) k = GenResult.ok p)
    (hfail : ∀ a, a < k → ∃ e, cap (mkRequest prompt narrative) a = GenResult.err e)
    (hk : k < maxRetries) :
    ∀ fuel attempt, k - attempt = fuel → attempt ≤ k →
      (retryLoop cap prompt narrative maxRetries delay attempt).result = some p ∧
      (retryLoop cap prompt narrative maxRetries delay attempt).attempts =
        k + 1 - attempt := by
  intro fuel
  induction fuel with
  | zero =>
    intro attempt hf ha
    have heq : attempt = k := by omega
    subst heq
    rw [retryLoop_ok cap prompt narrative maxRetries delay attempt (by omega) p hok]
    exact ⟨rfl, by simp⟩
  | succ n ih =>
    intro attempt hf ha
    have hlt : attempt < k := by omega
    obtain ⟨e, he⟩ := hfail attempt hlt
    have hlast : ¬ attempt = maxRetries - 1 := by omega
    rw [retryLoop_err_step cap prompt narrative maxRetries delay attempt (by omega) hlast e he]
    obtain ⟨h1, h2⟩ := ih (attempt + 1) (by omega) (by omega)
    refine ⟨h1, ?_⟩
    show (retryLoop cap prompt narrative maxRetries delay (attempt + 1)).attempts + 1 =
      k + 1 - attempt
    rw [h2]; omega

/-- C2: with a capability failing on exactly the first k attempts and then
succeeding with payload p, `process_single_narrative` with
`max_retries > k` returns exactly `some p` — the payload unchanged, with no
post-processing — after k + 1 attempts. -/
theorem annotator_retry_recovers (cap : Cap) (prompt narrative : String)
    (m delay k : Nat) (p : String) (hk : k < m)
    (hok : cap (mkRequest prompt narrative) k = GenResult.ok p)
    (hfail : ∀ a, a < k → ∃ e, cap (mkRequest prompt narrative) a = GenResult.err e) :
    (process_single_narrative cap prompt narrative m delay).result = some p ∧
    (process_single_narrative cap prompt narrative m delay).attempts = k + 1 := by
  have h := retryLoop_success_after cap prompt narrative m delay k p hok hfail hk k 0
    rfl (by omega)
  unfold process_single_narrative
  exact ⟨h.1, by rw [h.2]; omega⟩

theorem annotator_retry_recovers_witness :
    (process_single_narrative
      (fun _ a => if a = 0 then GenResult.err "x" else GenResult.ok "pay")
      "p" "t" 3 1).result = some "pay" ∧
    (process_single_narrative
      (fun _ a => if a = 0 then GenResult.err "x" else GenResult.ok "pay")
      "p" "t" 3 1).attempts = 2 :=
  annotator_retry_recovers
    (fun _ a => if a = 0 then GenResult.err "x" else GenResult.ok "pay")
    "p" "t" 3 1 1 "pay" (by decide) (by decide)
    (fun a ha => ⟨"x", by interval_cases a <;> rfl⟩)

/-- The pair text built by `process_narrative_pairs`:
`f"First: \x7bnarratives[i]\x7d\nSecond: \x7bnarratives[i+1]\x7d"`. -/
def pairPayload (a b : String) : String :=
  "First: " ++ a ++ "\nSecond: " ++ b

/-- Observable trace of one `process_narrative_pairs` call: the returned
list (`results` in the script) and all requests sent to the capability,
in order. -/
structure PairsTrace where
  results : List String
  requests : List String
deriving DecidableEq, Repr

/-- One iteration of the loop in `process_narrative_pairs`:
`results[i+1] = process_single_narrative(f"First: ...\nSecond: ...", client, prompt)`
with the Python defaults `max_retries = 3`, `delay = 1`.  With those
defaults the annotator's result is always `some` (see `retryLoop_isSome`),
so the `getD ""` default branch is unreachable. -/
def pairStep (cap : Cap) (prompt : String) (narratives : List String)
    (acc : PairsTrace) (i : Nat) : PairsTrace :=
  let tr := process_single_narrative cap prompt
    (pairPayload (narratives.getD i "") (narratives.getD (i + 1) "")) 3 1
  { results := acc.results.set (i + 1) (tr.result.getD ""),
    requests := acc.requests ++ tr.requests }

/-- `process_narrative_pairs(narratives, client, prompt)`:
`results = [''] * len(narratives)`, then
`for i in range(len(narratives) - 1)` run `pairStep`. -/
def process_narrative_pairs (cap : Cap) (prompt : String)
    (narratives : List String) : PairsTrace :=
  (List.range (narratives.length - 1)).foldl (pairStep cap prompt narratives)
    { results := List.replicate narratives.length "", requests := [] }

/-- The value stored at position i + 1 by iteration i of the pair loop,
re-indexed by the target position j = i + 1. -/
def pairCell (cap : Cap) (prompt : String) (narratives : List String)
    (j : Nat) : String :=
  (process_single_narrative cap prompt
    (pairPayload (narratives.getD (j - 1) "") (narratives.getD j "")) 3 1).result.getD ""

theorem map_range_set {α : Type} (n i : Nat) (g : Nat → α) (v : α) :
    ((List.range n).map g).set i v =
      (List.range n).map (fun j => if j = i then v else g j) := by
  apply List.ext_getElem?
  intro j
  rw [List.getElem?_set]
  by_cases hj : j < n
  · by_cases hji : i = j
    · subst hji
      simp [hj]
    · rw [if_neg hji]
      have hji' : ¬ j = i := fun h => hji (Eq.symm h)
      simp [hj, hji']
  · have h1 : ((List.range n).map g)[j]? = none :=
      List.getElem?_eq_none (by simp; omega)
    have h2 : ((List.range n).map (fun j => if j = i then v else g j))[j]? = none :=
      List.getElem?_eq_none (by simp; omega)
    rw [h2]
    by_cases hij : i = j
    · rw [if_pos hij, if_neg (by simp; omega)]
    · rw [if_neg hij, h1]

theorem pairStep_results (cap : Cap) (prompt : String) (narratives : List String)
    (acc : PairsTrace) (i : Nat) :
    (pairStep cap prompt narratives acc i).results =
      acc.results.set (i + 1)
        ((process_single_narrative cap prompt
          (pairPayload (narratives.getD i "") (narratives.getD (i + 1) "")) 3 1).result.getD
          "") := rfl

theorem pairStep_requests (cap : Cap) (prompt : String) (narratives : List String)
    (acc : PairsTrace) (i : Nat) :
    (pairStep cap prompt narratives acc i).requests =
      acc.requests ++
        (process_single_narrative cap prompt
          (pairPayload (narratives.getD i "") (narratives.getD (i + 1) "")) 3 1).requests :=
  rfl

theorem pairs_foldl_results (cap : Cap) (prompt : String) (narratives : List String)
    (acc0 : PairsTrace) (hacc : acc0.results = List.replicate narratives.length "") :
    ∀ m, m ≤ narratives.length - 1 →
      ((List.range m).foldl (pairStep cap prompt narratives) acc0).results =
        (List.range narratives.length).map
          (fun j => if 1 ≤ j ∧ j ≤ m then pairCell cap prompt narratives j else "") := by
  intro m
  induction m with
  | zero =>
    intro _
    have : (List.range narratives.length).map
        (fun j => if 1 ≤ j ∧ j ≤ 0 then pairCell cap prompt narratives j else "") =
        (List.range narratives.length).map (fun _ => "") := by
      apply List.map_congr_left
      intro j _
      rw [if_neg]
      omega
    rw [List.range_zero, List.foldl_nil, this, hacc]
    simp
  | succ m ih =>
    intro hm
    have hrange : List.range (m + 1) = List.range m ++ [m] := List.range_succ m
    rw [hrange, List.foldl_append, List.foldl_cons, List.foldl_nil,
      pairStep_results, ih (by omega), map_range_set]
    apply List.map_congr_left
    intro j _
    by_cases hj1 : j = m + 1
    · subst hj1
      rw [if_pos rfl, if_pos (by omega)]
      rfl
    · rw [if_neg hj1]
      by_cases hj2 : 1 ≤ j ∧ j ≤ m
      · rw [if_pos hj2, if_pos (by omega)]
      · rw [if_neg hj2, if_neg (by omega)]

theorem pairs_foldl_requests (cap : Cap) (prompt : String) (narratives : List String)
    (acc0 : PairsTrace) (hacc : acc0.requests = []) :
    ∀ m, ((List.range m).foldl (pairStep cap prompt narratives) acc0).requests =
      ((List.range m).map (fun i => (process_single_narrative cap prompt
        (pairPayload (narratives.getD i "") (narratives.getD (i + 1) "")) 3 1).requests)).flatten := by
  intro m
  induction m with
  | zero =>
    rw [List.range_zero, List.foldl_nil, List.map_nil]
    exact hacc
  | succ m ih =>
    rw [List.range_succ, List.foldl_append, List.foldl_cons, List.foldl_nil,
      pairStep_requests, ih, List.map_append, List.flatten_append]
    simp

/-- C3: the comparator returns one string per input annotation; the string at
position 0 is empty, and for 1 ≤ i < N the string at position i is the
Single-Item Annotator's result (with the script's default retry arguments)
on the payload labelling annotation i - 1 as First and annotation i as
Second, under the comparison instruction template. -/
theorem comparator_pointwise (cap : Cap) (prompt : String) (ns : List String) :
    (process_narrative_pairs cap prompt ns).results.length = ns.length ∧
    (0 < ns.length → (process_narrative_pairs cap prompt ns).results[0]? = some "") ∧
    (∀ i, 1 ≤ i → i < ns.length → ∀ s,
      (process_single_narrative cap prompt
        (pairPayload (ns.getD (i - 1) "") (ns.getD i "")) 3 1).result = some s →
      (process_narrative_pairs cap prompt ns).results[i]? = some s) := by
  unfold process_narrative_pairs
  rw [pairs_foldl_results cap prompt ns _ rfl (ns.length - 1) (by omega)]
  refine ⟨by simp, ?_, ?_⟩
  · intro h0
    rw [List.getElem?_map, List.getElem?_range h0]
    simp
  · intro i hi1 hi2 s hres
    rw [List.getElem?_map, List.getElem?_range hi2]
    have hcond : 1 ≤ i ∧ i ≤ ns.length - 1 := ⟨hi1, by omega⟩
    show some (if 1 ≤ i ∧ i ≤ ns.length - 1 then pairCell cap prompt ns i else "") = some s
    rw [if_pos hcond]
    unfold pairCell
    rw [hres]
    rfl

theorem comparator_pointwise_witness :
    (process_narrative_pairs (fun _ _ => GenResult.ok "A") "p" ["x", "y"]).results.length
      = 2 ∧
    (process_narrative_pairs (fun _ _ => GenResult.ok "A") "p" ["x", "y"]).results[0]?
      = some "" ∧
    (process_narrative_pairs (fun _ _ => GenResult.ok "A") "p" ["x", "y"]).results[1]?
      = some "A" := by
  have h := comparator_pointwise (fun _ _ => GenResult.ok "A") "p" ["x", "y"]
  refine ⟨h.1, h.2.1 (by decide), h.2.2 1 (by decide) (by decide) "A" ?_⟩
  unfold process_single_narrative
  rw [retryLoop_ok (fun _ _ => GenResult.ok "A") "p"
    (pairPayload (["x", "y"].getD 0 "") (["x", "y"].getD 1 "")) 3 1 0 (by decide) "A" rfl]

theorem single_first_ok (cap : Cap) (prompt x : String) (m delay : Nat)
    (hm : 0 < m) (p : String) (hok : cap (mkRequest prompt x) 0 = GenResult.ok p) :
    process_single_narrative cap prompt x m delay =
      { result := some p, attempts := 1, sleeps := [],
        requests := [mkRequest prompt x] } := by
  unfold process_single_narrative
  exact retryLoop_ok cap prompt x m delay 0 hm p hok

theorem flatten_singletons {α β : Type} (g : α → β) (l : List α) :
    (l.map (fun i => [g i])).flatten = l.map g := by
  induction l with
  | nil => rfl
  | cons x xs ih => simp [ih]

/-- C8: when every request succeeds at once, the request the comparator sends
for the persistence report of row i (the (i-1)-th comparison request) is the
comparison instruction followed by the Annotator's own request wrapper: the
pair text is additionally prefixed with the `Narrative:` label, giving
`comparison_prompt ++ "\n\nNarrative: " ++ ("First: " ++ annotation[i-1] ++
"\nSecond: " ++ annotation[i])`. -/
theorem comparator_request_shape (cap : Cap) (cp : String) (ns : List String)
    (i : Nat) (hi1 : 1 ≤ i) (hi2 : i < ns.length)
    (hsucc : ∀ req, ∃ p, cap req 0 = GenResult.ok p) :
    (process_narrative_pairs cap cp ns).requests[i - 1]? =
      some (cp ++ "\n\nNarrative: " ++
        ("First: " ++ ns.getD (i - 1) "" ++ "\nSecond: " ++ ns.getD i "")) := by
  unfold process_narrative_pairs
  rw [pairs_foldl_requests cap cp ns _ rfl (ns.length - 1)]
  have hmap : (List.range (ns.length - 1)).map (fun j => (process_single_narrative cap cp
      (pairPayload (ns.getD j "") (ns.getD (j + 1) "")) 3 1).requests) =
      (List.range (ns.length - 1)).map
        (fun j => [mkRequest cp (pairPayload (ns.getD j "") (ns.getD (j + 1) ""))]) := by
    apply List.map_congr_left
    intro j _
    obtain ⟨p, hp⟩ := hsucc (mkRequest cp (pairPayload (ns.getD j "") (ns.getD (j + 1) "")))
    rw [single_first_ok cap cp (pairPayload (ns.getD j "") (ns.getD (j + 1) "")) 3 1
      (by omega) p hp]
  rw [hmap, flatten_singletons
    (fun j => mkRequest cp (pairPayload (ns.getD j "") (ns.getD (j + 1) ""))),
    List.getElem?_map, List.getElem?_range (by omega : i - 1 < ns.length - 1)]
  have hidx : i - 1 + 1 = i := by omega
  show some (mkRequest cp (pairPayload (ns.getD (i - 1) "") (ns.getD (i - 1 + 1) ""))) = _
  rw [hidx]
  rfl

theorem comparator_request_shape_witness :
    (process_narrative_pairs (fun _ _ => GenResult.ok "A") "p" ["x", "y"]).requests[0]? =
      some ("p" ++ "\n\nNarrative: " ++
        ("First: " ++ "x" ++ "\nSecond: " ++ "y")) := by
  have h := comparator_request_shape (fun _ _ => GenResult.ok "A") "p" ["x", "y"] 1
    (by decide) (by decide) (fun req => ⟨"A", rfl⟩)
  exact h

/-- A data frame: named columns in order, each holding one cell string per
row.  `pd.read_csv(file_path, sep='\t')` yields such a table. -/
structure Table where
  cols : List (String × List String)
deriving DecidableEq, Repr

/-- Column lookup `df[c]`: values of the first column named c, `none` when
the name is missing (pandas raises KeyError). -/
def getColAux : List (String × List String) → String → Option (List String)
  | [], _ => none
  | (c', v') :: rest, c => if c' = c then some v' else getColAux rest c

def Table.getCol (t : Table) (c : String) : Option (List String) :=
  getColAux t.cols c

/-- Column assignment `df[c] = v`: replace the values of the first column
named c in place, or append a new column at the end (pandas keeps existing
column positions and inserts new columns last). -/
def setColAux :
    List (String × List String) → String → List String → List (String × List String)
  | [], c, v => [(c, v)]
  | (c', v') :: rest, c, v =>
      if c' = c then (c, v) :: rest else (c', v') :: setColAux rest c v

def Table.setCol (t : Table) (c : String) (v : List String) : Table :=
  ⟨setColAux t.cols c v⟩

/-- Well-formedness: every column holds exactly n cells (the table has n
rows). -/
def Table.wf (t : Table) (n : Nat) : Prop :=
  ∀ p ∈ t.cols, p.2.length = n

theorem getColAux_setColAux_self (l : List (String × List String))
    (c : String) (v : List String) :
    getColAux (setColAux l c v) c = some v := by
  induction l with
  | nil => simp [setColAux, getColAux]
  | cons p rest ih =>
    obtain ⟨c', v'⟩ := p
    by_cases h : c' = c
    · rw [setColAux, if_pos h, getColAux, if_pos rfl]
    · rw [setColAux, if_neg h, getColAux, if_neg h, ih]

theorem getColAux_setColAux_ne (l : List (String × List String))
    (c c' : String) (v : List String) (hne : c ≠ c') :
    getColAux (setColAux l c v) c' = getColAux l c' := by
  induction l with
  | nil => simp [setColAux, getColAux, hne]
  | cons p rest ih =>
    obtain ⟨a, b⟩ := p
    by_cases h : a = c
    · rw [setColAux, if_pos h, getColAux, getColAux, if_neg hne]
      subst h
      rw [if_neg hne]
    · rw [setColAux, if_neg h, getColAux, getColAux]
      by_cases h2 : a = c'
      · rw [if_pos h2, if_pos h2]
      · rw [if_neg h2, if_neg h2, ih]

theorem setColAux_setColAux_same (l : List (String × List String))
    (c : String) (v v' : List String) :
    setColAux (setColAux l c v) c v' = setColAux l c v' := by
  induction l with
  | nil => simp [setColAux]
  | cons p rest ih =>
    obtain ⟨a, b⟩ := p
    by_cases h : a = c
    · rw [setColAux, if_pos h, setColAux, if_pos rfl, setColAux, if_pos h]
    · rw [setColAux, if_neg h, setColAux, if_neg h, setColAux, if_neg h, ih]

theorem setColAux_comm (l : List (String × List String)) (c c' : String)
    (v v' : List String) (hne : c ≠ c')
    (hmem : (getColAux l c).isSome = true) :
    setColAux (setColAux l c' v') c v = setColAux (setColAux l c v) c' v' := by
  induction l with
  | nil => simp [getColAux] at hmem
  | cons p rest ih =>
    obtain ⟨a, b⟩ := p
    by_cases hac : a = c
    · subst hac
      simp [setColAux, hne]
    · by_cases hac' : a = c'
      · subst hac'
        simp [setColAux, hac, hne]
      · rw [getColAux, if_neg hac] at hmem
        simp [setColAux, hac, hac', ih hmem]

theorem getColAux_mem (l : List (String × List String)) (c : String)
    (v : List String) (h : getColAux l c = some v) : (c, v) ∈ l := by
  induction l with
  | nil => simp [getColAux] at h
  | cons p rest ih =>
    obtain ⟨a, b⟩ := p
    by_cases hac : a = c
    · rw [getColAux, if_pos hac] at h
      subst hac
      obtain rfl : b = v := by injection h
      exact List.mem_cons_self _ _
    · rw [getColAux, if_neg hac] at h
      exact List.mem_cons_of_mem _ (ih h)

theorem setColAux_wf (l : List (String × List String)) (c : String)
    (v : List String) (n : Nat) (hl : ∀ p ∈ l, p.2.length = n)
    (hv : v.length = n) : ∀ p ∈ setColAux l c v, p.2.length = n := by
  induction l with
  | nil =>
    intro p hp
    rw [setColAux] at hp
    rcases List.mem_singleton.mp hp with rfl
    exact hv
  | cons q rest ih =>
    obtain ⟨a, b⟩ := q
    intro p hp
    by_cases hac : a = c
    · rw [setColAux, if_pos hac] at hp
      rcases List.mem_cons.mp hp with rfl | hrest
      · exact hv
      · exact hl p (List.mem_cons_of_mem _ hrest)
    · rw [setColAux, if_neg hac] at hp
      rcases List.mem_cons.mp hp with rfl | hrest
      · exact hl (a, b) (List.mem_cons_self _ _)
      · exact ih (fun q hq => hl q (List.mem_cons_of_mem _ hq)) p hrest

theorem Table.getCol_setCol_self (t : Table) (c : String) (v : List String) :
    (t.setCol c v).getCol c = some v :=
  getColAux_setColAux_self t.cols c v

theorem Table.getCol_setCol_ne (t : Table) (c c' : String) (v : List String)
    (h : c ≠ c') : (t.setCol c v).getCol c' = t.getCol c' :=
  getColAux_setColAux_ne t.cols c c' v h

theorem Table.setCol_setCol_same (t : Table) (c : String) (v v' : List String) :
    (t.setCol c v).setCol c v' = t.setCol c v' :=
  congrArg Table.mk (setColAux_setColAux_same t.cols c v v')

theorem Table.setCol_comm (t : Table) (c c' : String) (v v' : List String)
    (hne : c ≠ c') (hmem : (t.getCol c).isSome = true) :
    (t.setCol c' v').setCol c v = (t.setCol c v).setCol c' v' :=
  congrArg Table.mk (setColAux_comm t.cols c c' v v' hne hmem)

theorem Table.wf_setCol (t : Table) (c : String) (v : List String) (n : Nat)
    (hwf : t.wf n) (hv : v.length = n) : (t.setCol c v).wf n :=
  setColAux_wf t.cols c v n hwf hv

/-- The annotator traces produced by
`df['Narrative'].apply(lambda x: process_single_narrative(x, client, narrative_prompt))`,
one per narrative cell, in row order, with the Python default retry
arguments. -/
def annTraces (cap : Cap) (np : String) (ns : List String) : List AnnotatorTrace :=
  ns.map (fun x => process_single_narrative cap np x 3 1)

/-- The cell values of the `Narrative_roles_and_salient_elements` column:
the annotator's returned strings.  With `max_retries = 3` every result is
`some` (see `retryLoop_isSome`), so `getD ""` names an unreachable branch. -/
def annList (cap : Cap) (np : String) (ns : List String) : List String :=
  (annTraces cap np ns).map (fun t => t.result.getD "")

/-- Observable outcome of `process_narratives`: `outcome` is either the
table handed to `df.to_csv` (written back in place) or the message of the
exception raised before any write; `requests` lists every request sent to
the capability during the run, in order. -/
structure DriverTrace where
  outcome : Except String Table
  requests : List String
deriving Repr

/-- `process_narratives(file_path, api_key, narrative_prompt, comparison_prompt)`.
Table I/O is an external collaborator: `load` is the outcome of
`pd.read_csv(file_path, sep='\t')` (`Except.error` when the source is
unreadable, and the error propagates).  A missing `Narrative` column makes
`df['Narrative']` raise `KeyError`.  Otherwise the script assigns the
`Narrative_roles_and_salient_elements` column from the annotator applied to
each narrative in row order, assigns `Elements_persistence` from
`process_narrative_pairs` over the annotation list, and writes the table
back to the same path. -/
def process_narratives (load : Except String Table) (cap : Cap)
    (np cp : String) : DriverTrace :=
  match load with
  | Except.error e => { outcome := Except.error e, requests := [] }
  | Except.ok df =>
    match df.getCol "Narrative" with
    | none => { outcome := Except.error "KeyError: Narrative", requests := [] }
    | some ns =>
      { outcome := Except.ok
          ((df.setCol "Narrative_roles_and_salient_elements"
              (annList cap np ns)).setCol "Elements_persistence"
            (process_narrative_pairs cap cp (annList cap np ns)).results),
        requests :=
          ((annTraces cap np ns).map (fun t => t.requests)).flatten ++
            (process_narrative_pairs cap cp (annList cap np ns)).requests }

theorem process_narratives_load_error (cap : Cap) (np cp e : String) :
    process_narratives (Except.error e) cap np cp =
      { outcome := Except.error e, requests := [] } := rfl

theorem process_narratives_no_column (cap : Cap) (np cp : String) (df : Table)
    (h : df.getCol "Narrative" = none) :
    process_narratives (Except.ok df) cap np cp =
      { outcome := Except.error "KeyError: Narrative", requests := [] } := by
  simp only [process_narratives, h]

theorem process_narratives_ok (cap : Cap) (np cp : String) (df : Table)
    (ns : List String) (hn : df.getCol "Narrative" = some ns) :
    process_narratives (Except.ok df) cap np cp =
      { outcome := Except.ok
          ((df.setCol "Narrative_roles_and_salient_elements"
              (annList cap np ns)).setCol "Elements_persistence"
            (process_narrative_pairs cap cp (annList cap np ns)).results),
        requests :=
          ((annTraces cap np ns).map (fun t => t.requests)).flatten ++
            (process_narrative_pairs cap cp (annList cap np ns)).requests } := by
  simp only [process_narratives, hn]

theorem annList_length (cap : Cap) (np : String) (ns : List String) :
    (annList cap np ns).length = ns.length := by
  simp [annList, annTraces]

theorem pairs_results_length (cap : Cap) (prompt : String) (ns : List String) :
    (process_narrative_pairs cap prompt ns).results.length = ns.length := by
  unfold process_narrative_pairs
  rw [pairs_foldl_results cap prompt ns _ rfl (ns.length - 1) (by omega)]
  simp

/-- C4: on a well-formed N-row table with a Narrative column, the driver
writes a table that still has exactly N cells in every column (N rows, no
row added, dropped, or deduplicated), the Narrative column byte-identical
and in the original order, and every original column other than the two
derived ones unchanged. -/
theorem driver_preserves_rows (cap : Cap) (np cp : String) (df : Table)
    (n : Nat) (ns : List String) (hwf : df.wf n)
    (hn : df.getCol "Narrative" = some ns) :
    ∃ out, (process_narratives (Except.ok df) cap np cp).outcome = Except.ok out ∧
      out.wf n ∧
      out.getCol "Narrative" = some ns ∧
      ∀ c, c ≠ "Narrative_roles_and_salient_elements" →
        c ≠ "Elements_persistence" → out.getCol c = df.getCol c := by
  have hlen : ns.length = n :=
    hwf ("Narrative", ns) (getColAux_mem df.cols "Narrative" ns hn)
  rw [process_narratives_ok cap np cp df ns hn]
  refine ⟨_, rfl, ?_, ?_, ?_⟩
  · apply Table.wf_setCol
    · apply Table.wf_setCol _ _ _ _ hwf
      rw [annList_length]
      exact hlen
    · rw [pairs_results_length, annList_length]
      exact hlen
  · rw [Table.getCol_setCol_ne _ _ _ _
        (show "Elements_persistence" ≠ "Narrative" by decide),
      Table.getCol_setCol_ne _ _ _ _
        (show "Narrative_roles_and_salient_elements" ≠ "Narrative" by decide),
      hn]
  · intro c hc1 hc2
    rw [Table.getCol_setCol_ne _ _ _ _ (fun h => hc2 (Eq.symm h)),
      Table.getCol_setCol_ne _ _ _ _ (fun h => hc1 (Eq.symm h))]

theorem driver_preserves_rows_witness :
    ∃ out, (process_narratives (Except.ok ⟨[("Narrative", ["x"]), ("Id", ["1"])]⟩)
        (fun _ _ => GenResult.ok "A") "n" "c").outcome = Except.ok out ∧
      out.wf 1 ∧
      out.getCol "Narrative" = some ["x"] ∧
      ∀ c, c ≠ "Narrative_roles_and_salient_elements" →
        c ≠ "Elements_persistence" →
        out.getCol c = Table.getCol ⟨[("Narrative", ["x"]), ("Id", ["1"])]⟩ c :=
  driver_preserves_rows (fun _ _ => GenResult.ok "A") "n" "c"
    ⟨[("Narrative", ["x"]), ("Id", ["1"])]⟩ 1 ["x"] (by simp [Table.wf]) (by decide)

/-- C6: structural failures abort the run before any write — an unreadable
source propagates its load error and a missing Narrative column raises
KeyError, in both cases with no table written and no request issued —
whereas per-request generation failures never abort: with a capability that
fails every attempt the run still writes a table, and the failures surface
only as error-marker text in the annotation column's cells. -/
theorem driver_error_tiers (cap : Cap) (np cp : String) :
    (∀ e, (process_narratives (Except.error e) cap np cp).outcome =
        Except.error e ∧
      (process_narratives (Except.error e) cap np cp).requests = []) ∧
    (∀ df : Table, df.getCol "Narrative" = none →
      (process_narratives (Except.ok df) cap np cp).outcome =
        Except.error "KeyError: Narrative" ∧
      (process_narratives (Except.ok df) cap np cp).requests = []) ∧
    (∀ (df : Table) (ns : List String) (E : String → Nat → String),
      df.getCol "Narrative" = some ns →
      (∀ req a, cap req a = GenResult.err (E req a)) →
      ∃ out, (process_narratives (Except.ok df) cap np cp).outcome =
          Except.ok out ∧
        ∃ anns, out.getCol "Narrative_roles_and_salient_elements" = some anns ∧
          anns.length = ns.length ∧ ∀ s ∈ anns, ∃ e, s = "Error: " ++ e) := by
  refine ⟨fun e => ⟨rfl, rfl⟩, ?_, ?_⟩
  · intro df h
    rw [process_narratives_no_column cap np cp df h]
    exact ⟨rfl, rfl⟩
  · intro df ns E hn hAll
    rw [process_narratives_ok cap np cp df ns hn]
    refine ⟨_, rfl, annList cap np ns, ?_, ?_, ?_⟩
    · rw [Table.getCol_setCol_ne _ _ _ _
          (show "Elements_persistence" ≠ "Narrative_roles_and_salient_elements" by decide),
        Table.getCol_setCol_self]
    · exact annList_length cap np ns
    · intro s hs
      unfold annList annTraces at hs
      rw [List.map_map] at hs
      obtain ⟨x, hx, hsx⟩ := List.mem_map.mp hs
      refine ⟨E (mkRequest np x) 2, ?_⟩
      rw [← hsx]
      show ((process_single_narrative cap np x 3 1).result.getD "") = _
      rw [single_allfail cap np x 3 1 (by omega) (fun a => E (mkRequest np x) a)
        (fun a => hAll (mkRequest np x) a)]
      rfl

theorem driver_error_tiers_witness :
    ((process_narratives (Except.error "io error") (fun _ _ => GenResult.err "boom")
        "n" "c").outcome = Except.error "io error" ∧
      (process_narratives (Except.error "io error") (fun _ _ => GenResult.err "boom")
        "n" "c").requests = []) ∧
    ((process_narratives (Except.ok ⟨[("Other", ["a"])]⟩)
        (fun _ _ => GenResult.err "boom") "n" "c").outcome =
        Except.error "KeyError: Narrative" ∧
      (process_narratives (Except.ok ⟨[("Other", ["a"])]⟩)
        (fun _ _ => GenResult.err "boom") "n" "c").requests = []) ∧
    (∃ out, (process_narratives (Except.ok ⟨[("Narrative", ["t"])]⟩)
        (fun _ _ => GenResult.err "boom") "n" "c").outcome = Except.ok out ∧
      ∃ anns, out.getCol "Narrative_roles_and_salient_elements" = some anns ∧
        anns.length = (["t"] : List String).length ∧
        ∀ s ∈ anns, ∃ e, s = "Error: " ++ e) :=
  ⟨(driver_error_tiers (fun _ _ => GenResult.err "boom") "n" "c").1 "io error",
   (driver_error_tiers (fun _ _ => GenResult.err "boom") "n" "c").2.1
     ⟨[("Other", ["a"])]⟩ (by decide),
   (driver_error_tiers (fun _ _ => GenResult.err "boom") "n" "c").2.2
     ⟨[("Narrative", ["t"])]⟩ ["t"] (fun _ _ => "boom") (by decide)
     (fun _ _ => rfl)⟩

theorem setCol_rerun (df : Table) (A P : String) (va vp : List String)
    (hAP : A ≠ P) :
    ((((df.setCol A va).setCol P vp).setCol A va).setCol P vp) =
      (df.setCol A va).setCol P vp := by
  have hmem : ((df.setCol A va).getCol A).isSome = true := by
    rw [Table.getCol_setCol_self]
    rfl
  have h1 : (((df.setCol A va).setCol P vp).setCol A va) =
      (df.setCol A va).setCol P vp := by
    rw [Table.setCol_comm (df.setCol A va) A P va vp hAP hmem,
      Table.setCol_setCol_same]
  rw [h1, Table.setCol_setCol_same]

/-- C7: rerunning the driver on its own output cannot fail (the Narrative
column is untouched by the first run), and it recomputes and overwrites
exactly the two derived columns from that unchanged Narrative column; the
embedded capability is a function of its request, hence deterministic, and
the rerun writes precisely the table the fresh run wrote. -/
theorem driver_rerun_fixed_point (cap : Cap) (np cp : String) (df : Table)
    (ns : List String) (hn : df.getCol "Narrative" = some ns) :
    ∃ out, (process_narratives (Except.ok df) cap np cp).outcome = Except.ok out ∧
      (process_narratives (Except.ok out) cap np cp).outcome = Except.ok out := by
  rw [process_narratives_ok cap np cp df ns hn]
  refine ⟨_, rfl, ?_⟩
  have hn2 : ((df.setCol "Narrative_roles_and_salient_elements"
      (annList cap np ns)).setCol "Elements_persistence"
      (process_narrative_pairs cap cp (annList cap np ns)).results).getCol
      "Narrative" = some ns := by
    rw [Table.getCol_setCol_ne _ _ _ _
        (show "Elements_persistence" ≠ "Narrative" by decide),
      Table.getCol_setCol_ne _ _ _ _
        (show "Narrative_roles_and_salient_elements" ≠ "Narrative" by decide),
      hn]
  rw [process_narratives_ok cap np cp _ ns hn2]
  rw [setCol_rerun df "Narrative_roles_and_salient_elements" "Elements_persistence"
    (annList cap np ns) (process_narrative_pairs cap cp (annList cap np ns)).results
    (by decide)]

theorem driver_rerun_fixed_point_witness :
    ∃ out, (process_narratives (Except.ok ⟨[("Narrative", ["t"])]⟩)
        (fun _ _ => GenResult.ok "A") "n" "c").outcome = Except.ok out ∧
      (process_narratives (Except.ok out) (fun _ _ => GenResult.ok "A")
        "n" "c").outcome = Except.ok out :=
  driver_rerun_fixed_point (fun _ _ => GenResult.ok "A") "n" "c"
    ⟨[("Narrative", ["t"])]⟩ ["t"] (by decide)

/-- C10: when every request succeeds at the first attempt, a run over an
N-row table issues the N annotation requests first, in row order, then the
N - 1 comparison requests, for 2N - 1 requests in total (which is 0 when
N = 0, by Nat subtraction). -/
theorem driver_request_schedule (cap : Cap) (np cp : String) (df : Table)
    (ns : List String) (hn : df.getCol "Narrative" = some ns)
    (hsucc : ∀ req, ∃ p, cap req 0 = GenResult.ok p) :
    ∃ B, (process_narratives (Except.ok df) cap np cp).requests =
        ns.map (fun x => mkRequest np x) ++ B ∧
      B.length = ns.length - 1 ∧
      (∀ r ∈ B, ∃ a b, r = mkRequest cp (pairPayload a b)) ∧
      (process_narratives (Except.ok df) cap np cp).requests.length =
        2 * ns.length - 1 := by
  rw [process_narratives_ok cap np cp df ns hn]
  have hann : ((annTraces cap np ns).map (fun t => t.requests)).flatten =
      ns.map (fun x => mkRequest np x) := by
    unfold annTraces
    rw [List.map_map]
    have hcong : ns.map
        ((fun t => t.requests) ∘ (fun x => process_single_narrative cap np x 3 1)) =
        ns.map (fun x => [mkRequest np x]) := by
      apply List.map_congr_left
      intro x _
      obtain ⟨p, hp⟩ := hsucc (mkRequest np x)
      show (process_single_narrative cap np x 3 1).requests = [mkRequest np x]
      rw [single_first_ok cap np x 3 1 (by omega) p hp]
    rw [hcong, flatten_singletons (fun x => mkRequest np x) ns]
  have hpair : (process_narrative_pairs cap cp (annList cap np ns)).requests =
      (List.range ((annList cap np ns).length - 1)).map
        (fun i => mkRequest cp (pairPayload ((annList cap np ns).getD i "")
          ((annList cap np ns).getD (i + 1) ""))) := by
    unfold process_narrative_pairs
    rw [pairs_foldl_requests cap cp (annList cap np ns) _ rfl
      ((annList cap np ns).length - 1)]
    have hcong : (List.range ((annList cap np ns).length - 1)).map
        (fun i => (process_single_narrative cap cp
          (pairPayload ((annList cap np ns).getD i "")
            ((annList cap np ns).getD (i + 1) ""))  3 1).requests) =
        (List.range ((annList cap np ns).length - 1)).map
          (fun i => [mkRequest cp (pairPayload ((annList cap np ns).getD i "")
            ((annList cap np ns).getD (i + 1) ""))]) := by
      apply List.map_congr_left
      intro i _
      obtain ⟨p, hp⟩ := hsucc (mkRequest cp (pairPayload ((annList cap np ns).getD i "")
        ((annList cap np ns).getD (i + 1) "")))
      rw [single_first_ok cap cp _ 3 1 (by omega) p hp]
    rw [hcong, flatten_singletons]
  refine ⟨(process_narrative_pairs cap cp (annList cap np ns)).requests, ?_, ?_, ?_, ?_⟩
  · show ((annTraces cap np ns).map (fun t => t.requests)).flatten ++
        (process_narrative_pairs cap cp (annList cap np ns)).requests =
      ns.map (fun x => mkRequest np x) ++
        (process_narrative_pairs cap cp (annList cap np ns)).requests
    rw [hann]
  · rw [hpair]
    simp [annList_length]
  · intro r hr
    rw [hpair] at hr
    obtain ⟨i, hi, hri⟩ := List.mem_map.mp hr
    exact ⟨(annList cap np ns).getD i "", (annList cap np ns).getD (i + 1) "",
      Eq.symm hri⟩
  · show (((annTraces cap np ns).map (fun t => t.requests)).flatten ++
        (process_narrative_pairs cap cp (annList cap np ns)).requests).length =
      2 * ns.length - 1
    rw [hann, hpair, List.length_append, List.length_map, List.length_map,
      List.length_range, annList_length]
    omega

theorem driver_request_schedule_witness :
    ∃ B, (process_narratives (Except.ok ⟨[("Narrative", ["x", "y"])]⟩)
        (fun _ _ => GenResult.ok "A") "n" "c").requests =
        (["x", "y"] : List String).map (fun x => mkRequest "n" x) ++ B ∧
      B.length = (["x", "y"] : List String).length - 1 ∧
      (∀ r ∈ B, ∃ a b, r = mkRequest "c" (pairPayload a b)) ∧
      (process_narratives (Except.ok ⟨[("Narrative", ["x", "y"])]⟩)
        (fun _ _ => GenResult.ok "A") "n" "c").requests.length =
        2 * (["x", "y"] : List String).length - 1 :=
  driver_request_schedule (fun _ _ => GenResult.ok "A") "n" "c"
    ⟨[("Narrative", ["x", "y"])]⟩ ["x", "y"] (by decide) (fun req => ⟨"A", rfl⟩)
